import Mathlib

/-!
Shallow embedding of the sliding-window firewall anomaly detection engine
(`processor/firewall_anomaly_detector.go`): window store, feature extractor,
anomaly scorer, and the per-record orchestration in `processLog`.

Modelling conventions:
* Go `float64` values are modelled as real numbers (`ℝ`).
* Go `time.Time` instants and durations are modelled as integers (`ℤ`),
  measured in seconds; `t.Add(d)` is `t + d` and `time.Since(t)` at current
  instant `now` is `now - t`.
* The Go map `map[string]*WindowData` is modelled as an association list
  with at most one entry per key, which the operations maintain.
* The Go map `map[string]bool` used as an IP set is modelled as a duplicate
  free list of strings (`insertIP` is idempotent, like a map insert).
* A Go `map[string]float64` feature map is an association list
  `List (String × ℝ)`; reading a missing key yields the zero value `0.0`,
  which `featVal` reproduces.
* The single mutex-guarded sections of the Go code (`updateWindow`,
  `getWindow`, `clearWindow`) are modelled as atomic state transformers;
  `RaceState` below interleaves them to analyse the flush race.
-/

/-- Model of the Go struct `WindowData`. -/
structure WindowData where
  Values    : List ℝ
  IPs       : List String
  LastMean  : ℝ
  StartTime : ℤ
  EndTime   : ℤ
deriving Inhabited

/-- Model of the Go struct `FirewallLog` (the fields the engine reads). -/
structure FirewallLog where
  Timestamp       : ℤ
  LogSource       : String
  SourceIP        : String
  DestIP          : String
  ConnectionCount : ℤ
  BytesSent       : ℤ
  BytesRecv       : ℤ
deriving Inhabited

/-- Model of the detector state (`FirewallAnomalyDetector`): the fields
the engine logic reads and writes — configuration values, the source to
metric-field mapping, the window map, and the three counters. -/
structure FirewallAnomalyDetector where
  windowSeconds     : ℤ
  scoreThreshold    : ℝ
  sources           : List (String × String)
  windows           : List (String × WindowData)
  processedLogs     : ℕ
  anomaliesDetected : ℕ
  windowsCreated    : ℕ
deriving Inhabited

/-- Model of the result map built in `processLog` (the emitted Decision). -/
structure Decision where
  timestamp     : ℤ
  log_source    : String
  window_start  : ℤ
  window_end    : ℤ
  anomaly_score : ℝ
  is_anomaly    : Bool
  reason        : String
  features      : List (String × ℝ)
  metric_field  : String
  metric_value  : ℝ
deriving Inhabited

/-- Lookup in an association list, as Go map indexing `m[k]` (comma-ok
form: `none` models "key absent"). -/
def lookupAssoc {α : Type} (xs : List (String × α)) (k : String) : Option α :=
  (xs.find? (fun p => p.1 == k)).map Prod.snd

/-- Go map assignment `m[k] = v`: replace the entry for `k` if present,
otherwise append a new entry. -/
def setWindow (ws : List (String × WindowData)) (k : String) (w : WindowData) :
    List (String × WindowData) :=
  match ws with
  | [] => [(k, w)]
  | p :: rest => if p.1 == k then (k, w) :: rest else p :: setWindow rest k w

/-- Go map-as-set insertion `window.IPs[sourceIP] = true`: adding a key
already present does not grow the set. -/
def insertIP (ips : List String) (ip : String) : List String :=
  if ip ∈ ips then ips else ips ++ [ip]

/-- Arithmetic mean of a list of samples, as computed by `stat.Mean`:
sum divided by length. Callers guard against empty input. -/
noncomputable def mean (vs : List ℝ) : ℝ := vs.sum / vs.length

/-- Unbiased sample variance as computed by gonum `stat.Variance` with
nil weights: sum of squared deviations from the mean divided by `n - 1`. -/
noncomputable def sampleVariance (vs : List ℝ) : ℝ :=
  ((vs.map (fun v => (v - mean vs) ^ 2)).sum) / ((vs.length : ℝ) - 1)

/-- Standard deviation as computed by gonum `stat.StdDev` with nil
weights: square root of the unbiased sample variance. -/
noncomputable def stdDev (vs : List ℝ) : ℝ := Real.sqrt (sampleVariance vs)

/-- Maximum of the sample sequence, computed as in `extractFeatures`:
start from `Values[0]` and scan the list (only used on non-empty input). -/
noncomputable def maxVal (vs : List ℝ) : ℝ := vs.foldl max (vs.headD 0)

/-- Minimum of the sample sequence, computed as in `extractFeatures`. -/
noncomputable def minVal (vs : List ℝ) : ℝ := vs.foldl min (vs.headD 0)

/-- Model of `extractFeatures`: the 7-field feature map built from a
window snapshot, following the Go function branch by branch. -/
noncomputable def extractFeatures (w : WindowData) : List (String × ℝ) :=
  if w.Values.length = 0 then
    [("mean_value", 0), ("std_dev", 0), ("max_value", 0), ("min_value", 0),
     ("percent_change", 0), ("unique_ips", 0), ("peak_to_mean_ratio", 0)]
  else
    let m := mean w.Values
    let sd := stdDev w.Values
    let mx := maxVal w.Values
    let mn := minVal w.Values
    let percentChange := if w.LastMean > 0 then ((m - w.LastMean) / w.LastMean) * 100 else 0
    let uniqueIPs : ℝ := (w.IPs.length : ℝ)
    let peakToMeanRatio := if m > 0 then mx / m else 0
    [("mean_value", m), ("std_dev", sd), ("max_value", mx), ("min_value", mn),
     ("percent_change", percentChange), ("unique_ips", uniqueIPs),
     ("peak_to_mean_ratio", peakToMeanRatio)]

/-- Read a key from a feature map; a missing key yields the Go zero
value `0.0`, matching `features["k"]` on a `map[string]float64`. -/
def featVal (fs : List (String × ℝ)) (k : String) : ℝ :=
  ((fs.find? (fun p => p.1 == k)).map Prod.snd).getD 0

/-- Model of `scoreAnomaly`: additive heuristic over the feature map,
capped by `math.Min(score, 1.0)`. -/
noncomputable def scoreAnomaly (features : List (String × ℝ)) : ℝ :=
  let score : ℝ := 0
  let score := if |featVal features "percent_change"| > 50 then score + 0.3 else score
  let score := if featVal features "peak_to_mean_ratio" > 3 then score + 0.2 else score
  let score := if featVal features "std_dev" > featVal features "mean_value" then score + 0.2 else score
  let score := if featVal features "unique_ips" > 100 then score + 0.3 else score
  min score 1

/-- Fresh window created by `updateWindow` when no window exists for the
key: empty samples and IPs, `LastMean` left at the Go zero value `0.0`,
start at the sample timestamp, end at start plus the configured duration. -/
def freshWindow (windowSeconds timestamp : ℤ) : WindowData :=
  { Values := [], IPs := [], LastMean := 0,
    StartTime := timestamp, EndTime := timestamp + windowSeconds }

/-- Mutation `updateWindow` performs on the (existing or fresh) window:
append the sample, add the IP, and extend the end time when the sample
timestamp lies past the current end. -/
def addSample (windowSeconds : ℤ) (w : WindowData) (value : ℝ) (sourceIP : String)
    (timestamp : ℤ) : WindowData :=
  let w := { w with Values := w.Values ++ [value], IPs := insertIP w.IPs sourceIP }
  if timestamp > w.EndTime then { w with EndTime := timestamp + windowSeconds } else w

/-- Model of `updateWindow`: create the window if absent (counting it),
then append the sample, add the IP and possibly extend the end time. -/
def updateWindow (f : FirewallAnomalyDetector) (windowKey : String) (value : ℝ)
    (sourceIP : String) (timestamp : ℤ) : FirewallAnomalyDetector :=
  match lookupAssoc f.windows windowKey with
  | some w =>
    let w := addSample f.windowSeconds w value sourceIP timestamp
    { f with windows := setWindow f.windows windowKey w }
  | none =>
    let w := addSample f.windowSeconds (freshWindow f.windowSeconds timestamp) value sourceIP timestamp
    { f with windows := setWindow f.windows windowKey w,
             windowsCreated := f.windowsCreated + 1 }

/-- Model of `getWindow`: read-only map lookup under the shared lock. -/
def getWindow (f : FirewallAnomalyDetector) (windowKey : String) : Option WindowData :=
  lookupAssoc f.windows windowKey

/-- Model of `clearWindow`: delete the entry for the key under the lock. -/
def clearWindow (f : FirewallAnomalyDetector) (windowKey : String) : FirewallAnomalyDetector :=
  { f with windows := f.windows.filter (fun p => !(p.1 == windowKey)) }

/-- Metric extraction switch inside `processLog`: a recognized field name
yields the corresponding numeric value of the record; the default branch
of the Go switch returns from `processLog` and is modelled as `none`. -/
def metricValueOf (log : FirewallLog) (metricField : String) : Option ℝ :=
  if metricField == "connection_count" then some (log.ConnectionCount : ℝ)
  else if metricField == "bytes_sent" then some (log.BytesSent : ℝ)
  else if metricField == "bytes_recv" then some (log.BytesRecv : ℝ)
  else none

/-- Model of `processLog` at current instant `now`: counts the record,
resolves the metric field, extracts the metric value, updates the window,
and — when the window has been eligible for at least `windowSeconds`
seconds past its end — extracts features, scores, builds the Decision,
bumps the anomaly counter when flagged, and clears the window. -/
noncomputable def processLog (f : FirewallAnomalyDetector) (now : ℤ) (log : FirewallLog) :
    FirewallAnomalyDetector × Option Decision :=
  let f := { f with processedLogs := f.processedLogs + 1 }
  match lookupAssoc f.sources log.LogSource with
  | none => (f, none)
  | some metricField =>
    match metricValueOf log metricField with
    | none => (f, none)
    | some metricValue =>
      let windowKey := log.LogSource
      let f := updateWindow f windowKey metricValue log.SourceIP log.Timestamp
      match getWindow f windowKey with
      | none => (f, none)
      | some window =>
        if now - window.EndTime < f.windowSeconds then (f, none)
        else
          let features := extractFeatures window
          let anomalyScore := scoreAnomaly features
          let isAnomaly : Bool := decide (anomalyScore ≥ f.scoreThreshold)
          let result : Decision :=
            { timestamp := window.EndTime, log_source := log.LogSource,
              window_start := window.StartTime, window_end := window.EndTime,
              anomaly_score := anomalyScore, is_anomaly := isAnomaly,
              reason := "hike_rate_detected", features := features,
              metric_field := metricField, metric_value := metricValue }
          let f := if isAnomaly then { f with anomaliesDetected := f.anomaliesDetected + 1 } else f
          let f := clearWindow f windowKey
          (f, some result)

/-- Initial detector state built by `newFirewallAnomalyDetector`:
empty window map and zeroed counters. -/
def initDetector (windowSeconds : ℤ) (scoreThreshold : ℝ)
    (sources : List (String × String)) : FirewallAnomalyDetector :=
  { windowSeconds := windowSeconds, scoreThreshold := scoreThreshold,
    sources := sources, windows := [],
    processedLogs := 0, anomaliesDetected := 0, windowsCreated := 0 }

/-- Run a sequence of records through `processLog`, keeping only the
state (each list entry is the current instant paired with the record). -/
noncomputable def runLogs (f : FirewallAnomalyDetector) (events : List (ℤ × FirewallLog)) :
    FirewallAnomalyDetector :=
  events.foldl (fun g e => (processLog g e.1 e.2).1) f

/-- Flush-eligibility test of `processLog` as a boolean: the caller
proceeds to emit a Decision exactly when `time.Since(window.EndTime)` is
not below the configured duration. -/
def flushEligible (windowSeconds now : ℤ) (w : WindowData) : Bool :=
  ! decide (now - w.EndTime < windowSeconds)

/-- State of two concurrent `processLog` callers racing the flush of one
source key: the window-store cell for that key, the snapshot each caller
obtained from `getWindow` (the read under the shared lock), and how many
Decisions have been emitted. -/
structure RaceState where
  window    : Option WindowData
  seen1     : Option WindowData
  seen2     : Option WindowData
  decisions : ℕ

/-- Atomic actions available to the two racing callers, mirroring the
lock discipline of the Go code: `read` is the `getWindow` call (shared
lock), `finish` is the remainder of the flush path — the eligibility
test on the snapshot already read, the Decision emission and the
`clearWindow` call. Even granting `finish` full atomicity (stronger than
the actual code, whose emission happens outside any lock), the race
below still duplicates the Decision. -/
inductive RaceAction where
  | read1
  | read2
  | finish1
  | finish2

/-- One atomic step of a racing caller. A `finish` step emits a Decision
and clears the window only when the snapshot that caller previously read
was present and flush-eligible. -/
def raceStep (windowSeconds now : ℤ) (s : RaceState) : RaceAction → RaceState
  | RaceAction.read1 => { s with seen1 := s.window }
  | RaceAction.read2 => { s with seen2 := s.window }
  | RaceAction.finish1 =>
    match s.seen1 with
    | some w =>
      if flushEligible windowSeconds now w then
        { s with decisions := s.decisions + 1, window := none }
      else s
    | none => s
  | RaceAction.finish2 =>
    match s.seen2 with
    | some w =>
      if flushEligible windowSeconds now w then
        { s with decisions := s.decisions + 1, window := none }
      else s
    | none => s

/-- Interleaved execution of the two racing callers under a schedule. -/
def raceRun (windowSeconds now : ℤ) (s : RaceState) (schedule : List RaceAction) : RaceState :=
  schedule.foldl (raceStep windowSeconds now) s

/-- Predicate holding of every window currently stored in the map. -/
def AllWindows (P : WindowData → Prop) (f : FirewallAnomalyDetector) : Prop :=
  ∀ p ∈ f.windows, P p.2

/-- Store invariants of the window map: at most one open window per
source key (no duplicate keys), and window-end at or after window-start
for every stored window. -/
def StoreInv (f : FirewallAnomalyDetector) : Prop :=
  (f.windows.map Prod.fst).Nodup ∧
  AllWindows (fun w => w.StartTime ≤ w.EndTime) f

/-- Apply a sequence of upsert operations
(key, sample value, origin IP, timestamp) through `updateWindow`. -/
def applyUpserts (f : FirewallAnomalyDetector)
    (ops : List (String × ℝ × String × ℤ)) : FirewallAnomalyDetector :=
  ops.foldl (fun g o => updateWindow g o.1 o.2.1 o.2.2.1 o.2.2.2) f

/-- Contribution of one `processLog` outcome to the "anomalies detected"
counter: one exactly when a Decision was emitted and flagged anomalous. -/
def anomalyIncrement : Option Decision → ℕ
  | some d => if d.is_anomaly then 1 else 0
  | none => 0

/-- Window used by the spec test vector: samples `[10,20,30,40,50]`,
three distinct origin IPs, carried baseline mean `25.0`. -/
def sampleWindow : WindowData :=
  { Values := [10, 20, 30, 40, 50], IPs := ["192.168.1.1", "192.168.1.2", "192.168.1.3"],
    LastMean := 25, StartTime := 0, EndTime := 60 }

/-- Window with no samples. -/
def emptyWindow : WindowData :=
  { Values := [], IPs := [], LastMean := 0, StartTime := 0, EndTime := 60 }

/-- Window left in the store by one record processed from a fresh
detector (sample value `5`, timestamp `0`, window duration `60`). -/
def c9Window : WindowData :=
  { Values := [5], IPs := ["ip"], LastMean := 0, StartTime := 0, EndTime := 60 }

/-- Detector whose single source mapping names an unrecognized metric
field, exercising the default branch of the metric switch in
`processLog`. -/
noncomputable def badFieldDetector : FirewallAnomalyDetector :=
  { windowSeconds := 60, scoreThreshold := 7 / 10,
    sources := [("fortinet.firewall", "unknown_field")], windows := [],
    processedLogs := 0, anomaliesDetected := 0, windowsCreated := 0 }

/-- Record for `badFieldDetector` whose source is mapped (to the
unrecognized field name). -/
def badFieldLog : FirewallLog :=
  { Timestamp := 0, LogSource := "fortinet.firewall", SourceIP := "192.168.1.100",
    DestIP := "10.0.0.50", ConnectionCount := 150, BytesSent := 0, BytesRecv := 0 }

/-- Record whose source key has no entry in the source-to-metric map. -/
def unmappedLog : FirewallLog :=
  { Timestamp := 0, LogSource := "unknown.source", SourceIP := "ip", DestIP := "d",
    ConnectionCount := 1, BytesSent := 0, BytesRecv := 0 }

/-- Flush-eligible window for the race analysis: its end time `0` lies
`100` seconds before the current instant, past the `60` second duration. -/
def raceWindow : WindowData :=
  { Values := [5], IPs := ["ip"], LastMean := 0, StartTime := 0, EndTime := 0 }

/-- Race starting state: the window is present, neither caller has read
it yet, and no Decision has been emitted. -/
def raceStart : RaceState :=
  { window := some raceWindow, seen1 := none, seen2 := none, decisions := 0 }

/-- Detector holding one flush-eligible window for source "s", used to
drive `processLog` through a full flush. -/
noncomputable def c6Detector : FirewallAnomalyDetector :=
  { windowSeconds := 60, scoreThreshold := 7 / 10,
    sources := [("s", "connection_count")],
    windows := [("s", raceWindow)],
    processedLogs := 0, anomaliesDetected := 0, windowsCreated := 0 }

/-- Record for source "s" carrying `connection_count = 5`. -/
def c6Log : FirewallLog :=
  { Timestamp := 0, LogSource := "s", SourceIP := "ip", DestIP := "d",
    ConnectionCount := 5, BytesSent := 0, BytesRecv := 0 }

/-- Feature map of the flushed window `{Values := [5,5], IPs := ["ip"]}`
with zero baseline. -/
def c6Features : List (String × ℝ) :=
  [("mean_value", 5), ("std_dev", 0), ("max_value", 5), ("min_value", 5),
   ("percent_change", 0), ("unique_ips", 1), ("peak_to_mean_ratio", 1)]

/-- Decision `processLog c6Detector 100 c6Log` emits: score `0`, below
the `0.7` threshold, routed as normal. -/
def c6Decision : Decision :=
  { timestamp := 0, log_source := "s", window_start := 0, window_end := 0,
    anomaly_score := 0, is_anomaly := false, reason := "hike_rate_detected",
    features := c6Features, metric_field := "connection_count", metric_value := 5 }

/-! Helper lemmas: reading the feature map of a non-empty window. -/

lemma extractFeatures_of_ne_nil (w : WindowData) (h : w.Values ≠ []) :
    extractFeatures w =
      [("mean_value", mean w.Values), ("std_dev", stdDev w.Values),
       ("max_value", maxVal w.Values), ("min_value", minVal w.Values),
       ("percent_change",
         if w.LastMean > 0 then ((mean w.Values - w.LastMean) / w.LastMean) * 100 else 0),
       ("unique_ips", (w.IPs.length : ℝ)),
       ("peak_to_mean_ratio",
         if mean w.Values > 0 then maxVal w.Values / mean w.Values else 0)] := by
  simp [extractFeatures, List.length_eq_zero, h]

lemma featVal_mean (w : WindowData) (h : w.Values ≠ []) :
    featVal (extractFeatures w) "mean_value" = mean w.Values := by
  rw [extractFeatures_of_ne_nil w h]; simp [featVal]

lemma featVal_stdDev (w : WindowData) (h : w.Values ≠ []) :
    featVal (extractFeatures w) "std_dev" = stdDev w.Values := by
  rw [extractFeatures_of_ne_nil w h]; simp [featVal]

lemma featVal_max (w : WindowData) (h : w.Values ≠ []) :
    featVal (extractFeatures w) "max_value" = maxVal w.Values := by
  rw [extractFeatures_of_ne_nil w h]; simp [featVal]

lemma featVal_min (w : WindowData) (h : w.Values ≠ []) :
    featVal (extractFeatures w) "min_value" = minVal w.Values := by
  rw [extractFeatures_of_ne_nil w h]; simp [featVal]

lemma featVal_percentChange (w : WindowData) (h : w.Values ≠ []) :
    featVal (extractFeatures w) "percent_change" =
      if w.LastMean > 0 then ((mean w.Values - w.LastMean) / w.LastMean) * 100 else 0 := by
  rw [extractFeatures_of_ne_nil w h]; simp [featVal]

lemma featVal_uniqueIPs (w : WindowData) (h : w.Values ≠ []) :
    featVal (extractFeatures w) "unique_ips" = (w.IPs.length : ℝ) := by
  rw [extractFeatures_of_ne_nil w h]; simp [featVal]

lemma featVal_percentChange_zeroBaseline (w : WindowData) (h : w.LastMean = 0) :
    featVal (extractFeatures w) "percent_change" = 0 := by
  by_cases hv : w.Values = []
  · simp [extractFeatures, hv, featVal]
  · rw [featVal_percentChange w hv, h]; norm_num

/-! Helper lemmas: folded extrema bound every sample. -/

lemma le_foldl_max (l : List ℝ) (a : ℝ) : a ≤ l.foldl max a := by
  induction l generalizing a with
  | nil => simp
  | cons b t ih => exact le_trans (le_max_left a b) (ih (max a b))

lemma mem_le_foldl_max (l : List ℝ) (a x : ℝ) (hx : x ∈ l) : x ≤ l.foldl max a := by
  induction l generalizing a with
  | nil => cases hx
  | cons b t ih =>
    rcases List.mem_cons.mp hx with rfl | hmem
    · exact le_trans (le_max_right a x) (le_foldl_max t (max a x))
    · exact ih (max a b) hmem

lemma foldl_min_le (l : List ℝ) (a : ℝ) : l.foldl min a ≤ a := by
  induction l generalizing a with
  | nil => simp
  | cons b t ih => exact le_trans (ih (min a b)) (min_le_left a b)

lemma foldl_min_le_mem (l : List ℝ) (a x : ℝ) (hx : x ∈ l) : l.foldl min a ≤ x := by
  induction l generalizing a with
  | nil => cases hx
  | cons b t ih =>
    rcases List.mem_cons.mp hx with rfl | hmem
    · exact le_trans (foldl_min_le t (min a x)) (min_le_right a x)
    · exact ih (min a b) hmem

lemma mem_le_maxVal (vs : List ℝ) (x : ℝ) (hx : x ∈ vs) : x ≤ maxVal vs :=
  mem_le_foldl_max vs (vs.headD 0) x hx

lemma minVal_le_mem (vs : List ℝ) (x : ℝ) (hx : x ∈ vs) : minVal vs ≤ x :=
  foldl_min_le_mem vs (vs.headD 0) x hx

lemma mean_le_maxVal (vs : List ℝ) (h : vs ≠ []) : mean vs ≤ maxVal vs := by
  have hn : 0 < vs.length := List.length_pos.mpr h
  have hcast : (0 : ℝ) < (vs.length : ℝ) := by exact_mod_cast hn
  have hsum : vs.sum ≤ vs.length • maxVal vs :=
    List.sum_le_card_nsmul vs (maxVal vs) (fun x hx => mem_le_maxVal vs x hx)
  rw [mean, div_le_iff₀ hcast]
  calc vs.sum ≤ vs.length • maxVal vs := hsum
    _ = maxVal vs * (vs.length : ℝ) := by rw [nsmul_eq_mul]; ring

lemma minVal_le_mean (vs : List ℝ) (h : vs ≠ []) : minVal vs ≤ mean vs := by
  have hn : 0 < vs.length := List.length_pos.mpr h
  have hcast : (0 : ℝ) < (vs.length : ℝ) := by exact_mod_cast hn
  have hsum : vs.length • minVal vs ≤ vs.sum :=
    List.card_nsmul_le_sum vs (minVal vs) (fun x hx => minVal_le_mem vs x hx)
  rw [mean, le_div_iff₀ hcast]
  calc minVal vs * (vs.length : ℝ) = vs.length • minVal vs := by rw [nsmul_eq_mul]; ring
    _ ≤ vs.sum := hsum

/-! Helper lemmas: the window map under `setWindow` and `clearWindow`. -/

lemma lookupAssoc_setWindow_self (ws : List (String × WindowData)) (k : String) (w : WindowData) :
    lookupAssoc (setWindow ws k w) k = some w := by
  induction ws with
  | nil => simp [setWindow, lookupAssoc]
  | cons p rest ih =>
    by_cases hp : p.1 = k
    · simp [setWindow, hp, lookupAssoc]
    · simp only [setWindow, beq_iff_eq, hp, if_false]
      simpa [lookupAssoc, List.find?_cons_of_neg, hp] using ih

lemma lookupAssoc_setWindow_ne (ws : List (String × WindowData)) (k k' : String)
    (w : WindowData) (h : k' ≠ k) :
    lookupAssoc (setWindow ws k w) k' = lookupAssoc ws k' := by
  induction ws with
  | nil => simp [setWindow, lookupAssoc, Ne.symm h]
  | cons p rest ih =>
    by_cases hp : p.1 = k
    · subst hp
      simp [setWindow, lookupAssoc, Ne.symm h]
    · by_cases hp' : p.1 = k'
      · have h1 : (p :: setWindow rest k w).find? (fun q => q.1 == k') = some p :=
          List.find?_cons_of_pos _ (by simpa using hp')
        have h2 : (p :: rest).find? (fun q => q.1 == k') = some p :=
          List.find?_cons_of_pos _ (by simpa using hp')
        simp only [setWindow, beq_iff_eq, hp, if_false, lookupAssoc, h1, h2]
      · simp only [setWindow, beq_iff_eq, hp, if_false]
        simpa [lookupAssoc, List.find?_cons_of_neg, hp'] using ih

lemma mem_setWindow (ws : List (String × WindowData)) (k : String) (w : WindowData)
    (p : String × WindowData) (hp : p ∈ setWindow ws k w) : p = (k, w) ∨ p ∈ ws := by
  induction ws with
  | nil => simpa [setWindow] using hp
  | cons q rest ih =>
    by_cases hq : q.1 = k
    · simp only [setWindow, beq_iff_eq, hq, if_true] at hp
      rcases List.mem_cons.mp hp with rfl | h
      · exact Or.inl rfl
      · exact Or.inr (List.mem_cons_of_mem q h)
    · simp only [setWindow, beq_iff_eq, hq, if_false] at hp
      rcases List.mem_cons.mp hp with rfl | h
      · exact Or.inr (List.mem_cons_self p rest)
      · rcases ih h with h' | h'
        · exact Or.inl h'
        · exact Or.inr (List.mem_cons_of_mem q h')

lemma mem_keys_setWindow (ws : List (String × WindowData)) (k : String) (w : WindowData)
    (a : String) (ha : a ∈ (setWindow ws k w).map Prod.fst) :
    a ∈ ws.map Prod.fst ∨ a = k := by
  rcases List.mem_map.mp ha with ⟨p, hp, rfl⟩
  rcases mem_setWindow ws k w p hp with rfl | h
  · exact Or.inr rfl
  · exact Or.inl (List.mem_map_of_mem Prod.fst h)

lemma keys_nodup_setWindow (ws : List (String × WindowData)) (k : String) (w : WindowData)
    (h : (ws.map Prod.fst).Nodup) : ((setWindow ws k w).map Prod.fst).Nodup := by
  induction ws with
  | nil => simp [setWindow]
  | cons p rest ih =>
    rw [List.map_cons, List.nodup_cons] at h
    by_cases hp : p.1 = k
    · subst hp
      simp only [setWindow, beq_iff_eq, if_true]
      rw [List.map_cons, List.nodup_cons]
      exact ⟨h.1, h.2⟩
    · simp only [setWindow, beq_iff_eq, hp, if_false]
      rw [List.map_cons, List.nodup_cons]
      refine ⟨fun hmem => ?_, ih h.2⟩
      rcases mem_keys_setWindow rest k w p.1 hmem with h' | h'
      · exact h.1 h'
      · exact hp h'

lemma getWindow_clearWindow_self (f : FirewallAnomalyDetector) (k : String) :
    getWindow (clearWindow f k) k = none := by
  simp only [getWindow, clearWindow, lookupAssoc]
  rw [List.find?_eq_none.mpr]
  · rfl
  · intro p hp
    have := List.of_mem_filter hp
    simpa using this

lemma mem_clearWindow (f : FirewallAnomalyDetector) (k : String)
    (p : String × WindowData) (hp : p ∈ (clearWindow f k).windows) : p ∈ f.windows :=
  List.mem_of_mem_filter hp

lemma keys_nodup_clearWindow (f : FirewallAnomalyDetector) (k : String)
    (h : (f.windows.map Prod.fst).Nodup) :
    (((clearWindow f k).windows).map Prod.fst).Nodup := by
  simp only [clearWindow]
  exact ((List.filter_sublist f.windows).map Prod.fst).nodup h

lemma lookupAssoc_mem {α : Type} (xs : List (String × α)) (k : String) (v : α)
    (h : lookupAssoc xs k = some v) : (k, v) ∈ xs := by
  simp only [lookupAssoc, Option.map_eq_some'] at h
  rcases h with ⟨p, hfind, rfl⟩
  have hmem := List.mem_of_find?_eq_some hfind
  have hk : p.1 = k := by
    have hkey := List.find?_some hfind
    simpa using hkey
  have hp : p = (k, p.2) := by
    cases p
    simp_all
  rw [← hp]
  exact hmem

/-! Helper lemmas: effect of `addSample` and `updateWindow` on a window. -/

lemma addSample_Values (d : ℤ) (w : WindowData) (v : ℝ) (ip : String) (ts : ℤ) :
    (addSample d w v ip ts).Values = w.Values ++ [v] := by
  simp only [addSample]
  split <;> rfl

lemma addSample_IPs (d : ℤ) (w : WindowData) (v : ℝ) (ip : String) (ts : ℤ) :
    (addSample d w v ip ts).IPs = insertIP w.IPs ip := by
  simp only [addSample]
  split <;> rfl

lemma addSample_LastMean (d : ℤ) (w : WindowData) (v : ℝ) (ip : String) (ts : ℤ) :
    (addSample d w v ip ts).LastMean = w.LastMean := by
  simp only [addSample]
  split <;> rfl

lemma addSample_StartTime (d : ℤ) (w : WindowData) (v : ℝ) (ip : String) (ts : ℤ) :
    (addSample d w v ip ts).StartTime = w.StartTime := by
  simp only [addSample]
  split <;> rfl

lemma addSample_startle_end (d : ℤ) (w : WindowData) (v : ℝ) (ip : String) (ts : ℤ)
    (hd : 0 ≤ d) (hw : w.StartTime ≤ w.EndTime) :
    (addSample d w v ip ts).StartTime ≤ (addSample d w v ip ts).EndTime := by
  by_cases h : ts > w.EndTime
  · have hle : w.StartTime ≤ ts + d := by linarith
    simpa [addSample, h] using hle
  · simpa [addSample, h] using hw

lemma length_le_insertIP (ips : List String) (ip : String) :
    ips.length ≤ (insertIP ips ip).length := by
  unfold insertIP
  split <;> simp

lemma updateWindow_scoreThreshold (f : FirewallAnomalyDetector) (k : String) (v : ℝ)
    (ip : String) (ts : ℤ) : (updateWindow f k v ip ts).scoreThreshold = f.scoreThreshold := by
  cases hl : lookupAssoc f.windows k <;> simp [updateWindow, hl]

lemma updateWindow_windowSeconds (f : FirewallAnomalyDetector) (k : String) (v : ℝ)
    (ip : String) (ts : ℤ) : (updateWindow f k v ip ts).windowSeconds = f.windowSeconds := by
  cases hl : lookupAssoc f.windows k <;> simp [updateWindow, hl]

lemma updateWindow_processedLogs (f : FirewallAnomalyDetector) (k : String) (v : ℝ)
    (ip : String) (ts : ℤ) : (updateWindow f k v ip ts).processedLogs = f.processedLogs := by
  cases hl : lookupAssoc f.windows k <;> simp [updateWindow, hl]

lemma updateWindow_anomaliesDetected (f : FirewallAnomalyDetector) (k : String) (v : ℝ)
    (ip : String) (ts : ℤ) :
    (updateWindow f k v ip ts).anomaliesDetected = f.anomaliesDetected := by
  cases hl : lookupAssoc f.windows k <;> simp [updateWindow, hl]

lemma getWindow_updateWindow_self (f : FirewallAnomalyDetector) (k : String) (v : ℝ)
    (ip : String) (ts : ℤ) :
    getWindow (updateWindow f k v ip ts) k =
      some (addSample f.windowSeconds
        ((lookupAssoc f.windows k).getD (freshWindow f.windowSeconds ts)) v ip ts) := by
  cases hl : lookupAssoc f.windows k <;>
    simp [updateWindow, getWindow, hl, lookupAssoc_setWindow_self]

lemma getWindow_updateWindow_ne (f : FirewallAnomalyDetector) (k k' : String) (v : ℝ)
    (ip : String) (ts : ℤ) (h : k' ≠ k) :
    getWindow (updateWindow f k v ip ts) k' = getWindow f k' := by
  cases hl : lookupAssoc f.windows k <;>
    simp [updateWindow, getWindow, hl, lookupAssoc_setWindow_ne _ _ _ _ h]

lemma mem_updateWindow (f : FirewallAnomalyDetector) (k : String) (v : ℝ) (ip : String)
    (ts : ℤ) (p : String × WindowData) (hp : p ∈ (updateWindow f k v ip ts).windows) :
    (∃ w0, p.2 = addSample f.windowSeconds w0 v ip ts ∧
      (lookupAssoc f.windows k = some w0 ∨ w0 = freshWindow f.windowSeconds ts)) ∨
    p ∈ f.windows := by
  cases hl : lookupAssoc f.windows k with
  | some w0 =>
    simp only [updateWindow, hl] at hp
    rcases mem_setWindow _ _ _ _ hp with rfl | h
    · exact Or.inl ⟨w0, rfl, Or.inl rfl⟩
    · exact Or.inr h
  | none =>
    simp only [updateWindow, hl] at hp
    rcases mem_setWindow _ _ _ _ hp with rfl | h
    · exact Or.inl ⟨freshWindow f.windowSeconds ts, rfl, Or.inr rfl⟩
    · exact Or.inr h

/-! Helper lemmas: store invariants are preserved by the operations. -/

lemma keys_nodup_updateWindow (f : FirewallAnomalyDetector) (k : String) (v : ℝ)
    (ip : String) (ts : ℤ) (h : (f.windows.map Prod.fst).Nodup) :
    (((updateWindow f k v ip ts).windows).map Prod.fst).Nodup := by
  cases hl : lookupAssoc f.windows k <;>
    simpa [updateWindow, hl] using keys_nodup_setWindow f.windows k _ h

lemma storeInv_updateWindow (f : FirewallAnomalyDetector) (k : String) (v : ℝ)
    (ip : String) (ts : ℤ) (hd : 0 ≤ f.windowSeconds) (h : StoreInv f) :
    StoreInv (updateWindow f k v ip ts) := by
  refine ⟨keys_nodup_updateWindow f k v ip ts h.1, ?_⟩
  intro p hp
  rcases mem_updateWindow f k v ip ts p hp with ⟨w0, hw, hcase⟩ | hmem
  · rw [hw]
    rcases hcase with hl | rfl
    · exact addSample_startle_end _ _ _ _ _ hd (h.2 _ (lookupAssoc_mem _ _ _ hl))
    · exact addSample_startle_end _ _ _ _ _ hd (by simp [freshWindow, hd])
  · exact h.2 p hmem

lemma lastMeanZero_updateWindow (f : FirewallAnomalyDetector) (k : String) (v : ℝ)
    (ip : String) (ts : ℤ) (h : AllWindows (fun w => w.LastMean = 0) f) :
    AllWindows (fun w => w.LastMean = 0) (updateWindow f k v ip ts) := by
  intro p hp
  rcases mem_updateWindow f k v ip ts p hp with ⟨w0, hw, hcase⟩ | hmem
  · rw [hw, addSample_LastMean]
    rcases hcase with hl | rfl
    · exact h _ (lookupAssoc_mem _ _ _ hl)
    · rfl
  · exact h p hmem

lemma lastMeanZero_clearWindow (f : FirewallAnomalyDetector) (k : String)
    (h : AllWindows (fun w => w.LastMean = 0) f) :
    AllWindows (fun w => w.LastMean = 0) (clearWindow f k) :=
  fun p hp => h p (mem_clearWindow f k p hp)

lemma lastMeanZero_processLog (f : FirewallAnomalyDetector) (now : ℤ) (log : FirewallLog)
    (h : AllWindows (fun w => w.LastMean = 0) f) :
    AllWindows (fun w => w.LastMean = 0) (processLog f now log).1 := by
  have hbump : AllWindows (fun w => w.LastMean = 0)
      { f with processedLogs := f.processedLogs + 1 } := h
  have hupd := fun mv => lastMeanZero_updateWindow
    { f with processedLogs := f.processedLogs + 1 } log.LogSource mv log.SourceIP
    log.Timestamp hbump
  cases hls : lookupAssoc f.sources log.LogSource with
  | none =>
    simp only [processLog, hls]
    exact hbump
  | some metricField =>
    cases hmv : metricValueOf log metricField with
    | none =>
      simp only [processLog, hls, hmv]
      exact hbump
    | some metricValue =>
      cases hg : getWindow (updateWindow { f with processedLogs := f.processedLogs + 1 }
          log.LogSource metricValue log.SourceIP log.Timestamp) log.LogSource with
      | none =>
        simp only [processLog, hls, hmv, hg]
        exact hupd metricValue
      | some window =>
        simp only [processLog, hls, hmv, hg]
        split
        · exact hupd metricValue
        · split <;> exact lastMeanZero_clearWindow _ _ (fun p hp => hupd metricValue p hp)

/-- C2: on the spec test window (samples `[10,20,30,40,50]`, baseline
`25.0`), `extractFeatures` yields `mean_value = 30`, `std_dev = √250`
(whose decimal expansion begins `15.811388300841896…`), `max_value = 50`,
`min_value = 10`, `peak_to_mean_ratio = 5/3 = 1.6666666666666667…` and
`percent_change = 20` exactly. -/
theorem spec_c2_test_vector :
    featVal (extractFeatures sampleWindow) "mean_value" = 30 ∧
    featVal (extractFeatures sampleWindow) "std_dev" = Real.sqrt 250 ∧
    |Real.sqrt 250 - 15.811388300841896| < 1 / 10 ^ 9 ∧
    featVal (extractFeatures sampleWindow) "max_value" = 50 ∧
    featVal (extractFeatures sampleWindow) "min_value" = 10 ∧
    featVal (extractFeatures sampleWindow) "peak_to_mean_ratio" = 5 / 3 ∧
    |(5 : ℝ) / 3 - 1.6666666666666667| < 1 / 10 ^ 9 ∧
    featVal (extractFeatures sampleWindow) "percent_change" = 20 := by
  refine ⟨?_, ?_, ?_, ?_, ?_, ?_, ?_, ?_⟩
  · norm_num [sampleWindow, extractFeatures, featVal, mean] <;> try (simp <;> try norm_num)
  · norm_num [sampleWindow, extractFeatures, featVal, mean, stdDev, sampleVariance] <;>
      try (simp <;> try norm_num)
  · rw [abs_sub_lt_iff]
    constructor
    · have h := (Real.sqrt_lt' (x := 250) (y := 15.811388300841896 + 1 / 10 ^ 9)
        (by norm_num)).mpr (by norm_num)
      linarith
    · have h := (Real.lt_sqrt (x := 15.811388300841896 - 1 / 10 ^ 9) (y := 250)
        (by norm_num)).mpr (by norm_num)
      linarith
  · norm_num [sampleWindow, extractFeatures, featVal, mean, maxVal] <;>
      try (simp <;> try norm_num)
  · norm_num [sampleWindow, extractFeatures, featVal, mean, minVal] <;>
      try (simp <;> try norm_num)
  · norm_num [sampleWindow, extractFeatures, featVal, mean, maxVal] <;>
      try (simp <;> try norm_num)
  · rw [abs_sub_lt_iff]
    constructor <;> norm_num
  · norm_num [sampleWindow, extractFeatures, featVal, mean] <;> try (simp <;> try norm_num)

/-- C1 counterexample: on the window with samples `[10,20,30,40,50]`,
the `std_dev` feature is `√250` (gonum `stat.StdDev`, the sample standard
deviation dividing by `n − 1`), which differs from the population
standard deviation `√((400+100+0+100+400)/5) = √200` the claim requires. -/
theorem spec_c1_cex_population_std :
    featVal (extractFeatures sampleWindow) "std_dev" = Real.sqrt 250 ∧
    Real.sqrt (((10 - 30 : ℝ) ^ 2 + (20 - 30) ^ 2 + (30 - 30) ^ 2 + (40 - 30) ^ 2 +
      (50 - 30) ^ 2) / 5) = Real.sqrt 200 ∧
    Real.sqrt 250 ≠ Real.sqrt 200 := by
  refine ⟨?_, by norm_num, ?_⟩
  · norm_num [sampleWindow, extractFeatures, featVal, mean, stdDev, sampleVariance] <;>
      try (simp <;> try norm_num)
  · have h : Real.sqrt 200 < Real.sqrt 250 :=
      Real.sqrt_lt_sqrt (by norm_num) (by norm_num)
    exact ne_of_gt h

/-- C1 as amended: for a window with at least two samples, the `std_dev`
feature equals the sample standard deviation — the square root of the
sum of squared deviations from the mean divided by `count − 1` (not by
`count`) — and for a window with no samples it is `0`. (With exactly one
sample the Go code divides zero by zero and produces NaN, which has no
real-number counterpart, so that case is excluded.) -/
theorem spec_c1_sample_std (w : WindowData) :
    (2 ≤ w.Values.length →
      featVal (extractFeatures w) "std_dev" =
        Real.sqrt (((w.Values.map
          (fun v => (v - w.Values.sum / w.Values.length) ^ 2)).sum) /
          ((w.Values.length : ℝ) - 1))) ∧
    (w.Values.length = 0 → featVal (extractFeatures w) "std_dev" = 0) := by
  constructor
  · intro h2
    have hne : w.Values ≠ [] := by
      intro hnil
      rw [hnil] at h2
      simp at h2
    rw [featVal_stdDev w hne]
    simp [stdDev, sampleVariance, mean]
  · intro h0
    have hnil : w.Values = [] := List.length_eq_zero.mp h0
    simp [extractFeatures, hnil, featVal]

/-- C1 witness: the amended statement evaluated on the five-sample spec
window and on the empty window. -/
theorem spec_c1_sample_std_witness :
    (2 ≤ sampleWindow.Values.length ∧
      featVal (extractFeatures sampleWindow) "std_dev" =
        Real.sqrt (((sampleWindow.Values.map
          (fun v => (v - sampleWindow.Values.sum / sampleWindow.Values.length) ^ 2)).sum) /
          ((sampleWindow.Values.length : ℝ) - 1))) ∧
    (emptyWindow.Values.length = 0 ∧
      featVal (extractFeatures emptyWindow) "std_dev" = 0) :=
  ⟨⟨by simp [sampleWindow], (spec_c1_sample_std sampleWindow).1 (by simp [sampleWindow])⟩,
   ⟨by simp [emptyWindow], (spec_c1_sample_std emptyWindow).2 (by simp [emptyWindow])⟩⟩

/-- C5: the feature map always carries exactly the seven named fields, in
both branches of `extractFeatures`; on a window with no samples every
one of the seven is present with value `0.0`. -/
theorem spec_c5_seven_fields (w : WindowData) :
    (extractFeatures w).map Prod.fst =
      ["mean_value", "std_dev", "max_value", "min_value", "percent_change",
       "unique_ips", "peak_to_mean_ratio"] ∧
    (w.Values.length = 0 →
      extractFeatures w =
        [("mean_value", 0), ("std_dev", 0), ("max_value", 0), ("min_value", 0),
         ("percent_change", 0), ("unique_ips", 0), ("peak_to_mean_ratio", 0)]) := by
  constructor
  · by_cases h : w.Values.length = 0 <;> simp [extractFeatures, h]
  · intro h
    simp [extractFeatures, h]

/-- C5 witness: the empty-window branch evaluated on `emptyWindow`. -/
theorem spec_c5_seven_fields_witness :
    emptyWindow.Values.length = 0 ∧
    extractFeatures emptyWindow =
      [("mean_value", 0), ("std_dev", 0), ("max_value", 0), ("min_value", 0),
       ("percent_change", 0), ("unique_ips", 0), ("peak_to_mean_ratio", 0)] :=
  ⟨by simp [emptyWindow], (spec_c5_seven_fields emptyWindow).2 (by simp [emptyWindow])⟩

/-- C10: on every window with at least one sample the extracted features
satisfy `min_value ≤ mean_value ≤ max_value`. -/
theorem spec_c10_min_mean_max (w : WindowData) (h : w.Values ≠ []) :
    featVal (extractFeatures w) "min_value" ≤ featVal (extractFeatures w) "mean_value" ∧
    featVal (extractFeatures w) "mean_value" ≤ featVal (extractFeatures w) "max_value" := by
  rw [featVal_min w h, featVal_mean w h, featVal_max w h]
  exact ⟨minVal_le_mean _ h, mean_le_maxVal _ h⟩

/-- C10 witness: the ordering evaluated on the five-sample spec window. -/
theorem spec_c10_min_mean_max_witness :
    sampleWindow.Values ≠ [] ∧
    (featVal (extractFeatures sampleWindow) "min_value" ≤
        featVal (extractFeatures sampleWindow) "mean_value" ∧
      featVal (extractFeatures sampleWindow) "mean_value" ≤
        featVal (extractFeatures sampleWindow) "max_value") :=
  ⟨by simp [sampleWindow], spec_c10_min_mean_max sampleWindow (by simp [sampleWindow])⟩

/-- C9: every window reachable through the engine operations (any
sequence of `processLog` calls from a fresh detector) has baseline mean
`LastMean = 0` — it is zero-initialized on creation and never populated
from a previous window — and consequently its `percent_change` feature
is `0`, since the code only computes a ratio when the baseline is
positive. -/
theorem spec_c9_zero_baseline (windowSeconds : ℤ) (scoreThreshold : ℝ)
    (sources : List (String × String)) (events : List (ℤ × FirewallLog))
    (k : String) (w : WindowData)
    (h : getWindow (runLogs (initDetector windowSeconds scoreThreshold sources) events) k =
      some w) :
    w.LastMean = 0 ∧ featVal (extractFeatures w) "percent_change" = 0 := by
  have hstep : ∀ (evs : List (ℤ × FirewallLog)) (f : FirewallAnomalyDetector),
      AllWindows (fun w => w.LastMean = 0) f →
      AllWindows (fun w => w.LastMean = 0) (runLogs f evs) := by
    intro evs
    induction evs with
    | nil => intro f hf; exact hf
    | cons e rest ih =>
      intro f hf
      exact ih _ (lastMeanZero_processLog f e.1 e.2 hf)
  have hall : AllWindows (fun w => w.LastMean = 0)
      (runLogs (initDetector windowSeconds scoreThreshold sources) events) :=
    hstep events _ (fun p hp => absurd hp (by simp [initDetector]))
  have hLM : w.LastMean = 0 := hall _ (lookupAssoc_mem _ _ _ h)
  exact ⟨hLM, featVal_percentChange_zeroBaseline w hLM⟩

/-- C9 witness: one record run through a freshly configured detector
leaves a window with zero baseline and zero percent-change feature. -/
theorem spec_c9_zero_baseline_witness :
    getWindow (runLogs (initDetector 60 (7 / 10) [("s", "connection_count")])
        [((0 : ℤ), ⟨0, "s", "ip", "d", 5, 0, 0⟩)]) "s" = some c9Window ∧
    c9Window.LastMean = 0 ∧
    featVal (extractFeatures c9Window) "percent_change" = 0 := by
  have hev : getWindow (runLogs (initDetector 60 (7 / 10) [("s", "connection_count")])
      [((0 : ℤ), ⟨0, "s", "ip", "d", 5, 0, 0⟩)]) "s" = some c9Window := rfl
  exact ⟨hev, spec_c9_zero_baseline 60 (7 / 10) _ _ "s" _ hev⟩

/-- C3 counterexample: on a record whose source is mapped to the
unrecognized field name "unknown_field", `processLog` returns early with
no Decision and leaves the window map untouched — no `0.0` sample is
appended and flush-eligibility is never tested, so the record is
dropped, contrary to the claim that processing continues with value
`0.0`. -/
theorem spec_c3_cex_unknown_field_dropped :
    (processLog badFieldDetector 0 badFieldLog).1.windows = [] ∧
    (processLog badFieldDetector 0 badFieldLog).2 = none := ⟨rfl, rfl⟩

/-- C3 as amended: when the configured metric field name for a mapped
source is none of `connection_count`, `bytes_sent`, `bytes_recv`, the
record is dropped exactly like an unmapped source: the only state change
is the records-processed count, `upsert` is not called, no Decision is
emitted, and no error is raised. -/
theorem spec_c3_unknown_field_drops (f : FirewallAnomalyDetector) (now : ℤ)
    (log : FirewallLog) (metricField : String)
    (hs : lookupAssoc f.sources log.LogSource = some metricField)
    (h1 : metricField ≠ "connection_count") (h2 : metricField ≠ "bytes_sent")
    (h3 : metricField ≠ "bytes_recv") :
    processLog f now log = ({ f with processedLogs := f.processedLogs + 1 }, none) := by
  have hmv : metricValueOf log metricField = none := by
    simp [metricValueOf, h1, h2, h3]
  simp [processLog, hs, hmv]

/-- C3 witness: the amended statement evaluated on `badFieldDetector`. -/
theorem spec_c3_unknown_field_drops_witness :
    (lookupAssoc badFieldDetector.sources badFieldLog.LogSource = some "unknown_field" ∧
      ("unknown_field" : String) ≠ "connection_count" ∧
      ("unknown_field" : String) ≠ "bytes_sent" ∧
      ("unknown_field" : String) ≠ "bytes_recv") ∧
    processLog badFieldDetector 0 badFieldLog =
      ({ badFieldDetector with processedLogs := badFieldDetector.processedLogs + 1 }, none) :=
  ⟨⟨rfl, by decide, by decide, by decide⟩,
    spec_c3_unknown_field_drops badFieldDetector 0 badFieldLog "unknown_field" rfl
      (by decide) (by decide) (by decide)⟩

/-- C7 counterexample: `processLog` increments the processed counter on a
record whose source has no metric mapping, a call that performs no flush
and emits no Decision — so the processed count is not incremented as part
of the flush transition nor tied to an emitted Decision. -/
theorem spec_c7_cex_processed_without_flush :
    (processLog (initDetector 60 (7 / 10) []) 0 unmappedLog).1.processedLogs = 1 ∧
    (processLog (initDetector 60 (7 / 10) []) 0 unmappedLog).2 = none := ⟨rfl, rfl⟩

/-- C7 as amended: the processed counter is incremented exactly once per
record at the start of `processLog`, whatever the outcome (dropped,
accumulated, or flushed); the anomalies-detected counter is incremented
exactly when the call emits a Decision flagged anomalous. -/
theorem spec_c7_counters (f : FirewallAnomalyDetector) (now : ℤ) (log : FirewallLog) :
    (processLog f now log).1.processedLogs = f.processedLogs + 1 ∧
    (processLog f now log).1.anomaliesDetected =
      f.anomaliesDetected + anomalyIncrement (processLog f now log).2 := by
  cases hls : lookupAssoc f.sources log.LogSource with
  | none => simp [processLog, hls, anomalyIncrement]
  | some metricField =>
    cases hmv : metricValueOf log metricField with
    | none => simp [processLog, hls, hmv, anomalyIncrement]
    | some metricValue =>
      cases hg : getWindow (updateWindow { f with processedLogs := f.processedLogs + 1 }
          log.LogSource metricValue log.SourceIP log.Timestamp) log.LogSource with
      | none =>
        simp [processLog, hls, hmv, hg, anomalyIncrement,
          updateWindow_processedLogs, updateWindow_anomaliesDetected]
      | some window =>
        simp only [processLog, hls, hmv, hg]
        split
        · simp [anomalyIncrement, updateWindow_processedLogs, updateWindow_anomaliesDetected]
        · split
          · simp_all [anomalyIncrement, clearWindow,
              updateWindow_processedLogs, updateWindow_anomaliesDetected]
          · simp_all [anomalyIncrement, clearWindow,
              updateWindow_processedLogs, updateWindow_anomaliesDetected]

/-- C4: the flush path of `processLog` is not atomic — the `getWindow`
read and the `clearWindow` removal are separate critical sections — so
two concurrent callers that both read the flush-eligible window before
either clears it each emit a Decision: the interleaving
read-read-finish-finish produces `2` Decisions for the single flush
event, while the serialized schedule produces `1`. This violates the
exactly-once emission the documentation promises, with duplicate
Decisions reachable whenever ingestion runs concurrently. -/
theorem spec_c4_flush_race_two_decisions :
    (raceRun 60 100 raceStart
      [RaceAction.read1, RaceAction.read2, RaceAction.finish1, RaceAction.finish2]).decisions
        = 2 ∧
    (raceRun 60 100 raceStart
      [RaceAction.read1, RaceAction.finish1, RaceAction.read2, RaceAction.finish2]).decisions
        = 1 := ⟨rfl, rfl⟩

/-- Monotonicity of one upsert: an existing window for any key keeps at
least its sample count and IP count. -/
lemma getWindow_mono_updateWindow (f : FirewallAnomalyDetector) (k k' : String) (v : ℝ)
    (ip : String) (ts : ℤ) (w : WindowData) (h : getWindow f k' = some w) :
    ∃ w', getWindow (updateWindow f k v ip ts) k' = some w' ∧
      w.Values.length ≤ w'.Values.length ∧ w.IPs.length ≤ w'.IPs.length := by
  by_cases hk : k' = k
  · subst hk
    rw [getWindow] at h
    refine ⟨addSample f.windowSeconds
      ((lookupAssoc f.windows k').getD (freshWindow f.windowSeconds ts)) v ip ts,
      getWindow_updateWindow_self f k' v ip ts, ?_, ?_⟩
    · rw [h, Option.getD_some, addSample_Values]
      simp
    · rw [h, Option.getD_some, addSample_IPs]
      exact length_le_insertIP w.IPs ip
  · refine ⟨w, ?_, le_refl _, le_refl _⟩
    rw [getWindow_updateWindow_ne f k k' v ip ts hk]
    exact h

/-- C8: under any sequence of upsert operations with a non-negative
window duration, the store keeps its invariants — at most one open
window per key (no duplicate keys), window-end at or after window-start
for every window (also across end-time extension on late timestamps) —
and the sample count and IP-set size of any existing window never
decrease. -/
theorem spec_c8_store_invariants (ops : List (String × ℝ × String × ℤ))
    (f : FirewallAnomalyDetector) (hd : 0 ≤ f.windowSeconds) (hinv : StoreInv f) :
    StoreInv (applyUpserts f ops) ∧
    ∀ k w, getWindow f k = some w →
      ∃ w', getWindow (applyUpserts f ops) k = some w' ∧
        w.Values.length ≤ w'.Values.length ∧ w.IPs.length ≤ w'.IPs.length := by
  induction ops generalizing f with
  | nil => exact ⟨hinv, fun k w h => ⟨w, h, le_refl _, le_refl _⟩⟩
  | cons o rest ih =>
    have hd' : 0 ≤ (updateWindow f o.1 o.2.1 o.2.2.1 o.2.2.2).windowSeconds := by
      rw [updateWindow_windowSeconds]
      exact hd
    have hinv' := storeInv_updateWindow f o.1 o.2.1 o.2.2.1 o.2.2.2 hd hinv
    obtain ⟨hinvRest, hmono⟩ := ih _ hd' hinv'
    refine ⟨hinvRest, ?_⟩
    intro k w h
    obtain ⟨w1, h1, hv1, hi1⟩ := getWindow_mono_updateWindow f o.1 k o.2.1 o.2.2.1 o.2.2.2 w h
    obtain ⟨w2, h2, hv2, hi2⟩ := hmono k w1 h1
    exact ⟨w2, h2, le_trans hv1 hv2, le_trans hi1 hi2⟩

/-- C8 witness: the invariants evaluated from the fresh detector through
one concrete upsert. -/
theorem spec_c8_store_invariants_witness :
    (0 ≤ (initDetector 60 (7 / 10) []).windowSeconds ∧
      StoreInv (initDetector 60 (7 / 10) [])) ∧
    StoreInv (applyUpserts (initDetector 60 (7 / 10) []) [("k", 5, "ip", 0)]) := by
  have hd : 0 ≤ (initDetector 60 (7 / 10) []).windowSeconds := by simp [initDetector]
  have hinv : StoreInv (initDetector 60 (7 / 10) []) := by
    constructor
    · simp [initDetector]
    · intro p hp
      simp [initDetector] at hp
  exact ⟨⟨hd, hinv⟩, (spec_c8_store_invariants [("k", 5, "ip", 0)] _ hd hinv).1⟩

/-- C6: `scoreAnomaly` equals the additive heuristic — `0.3` for
`|percent_change| > 50`, `0.2` for `peak_to_mean_ratio > 3`, `0.2` for
`std_dev > mean_value`, `0.3` for `unique_ips > 100` — clamped into
`[0, 1]`, so the score always lies in `[0, 1]`; and whenever `processLog`
emits a Decision, its `is_anomaly` flag holds exactly when its score is
at least the configured threshold. -/
theorem spec_c6_score_and_threshold (features : List (String × ℝ))
    (f : FirewallAnomalyDetector) (now : ℤ) (log : FirewallLog) (d : Decision) :
    scoreAnomaly features =
      max 0 (min ((if |featVal features "percent_change"| > 50 then (0.3 : ℝ) else 0) +
        (if featVal features "peak_to_mean_ratio" > 3 then (0.2 : ℝ) else 0) +
        (if featVal features "std_dev" > featVal features "mean_value" then (0.2 : ℝ) else 0) +
        (if featVal features "unique_ips" > 100 then (0.3 : ℝ) else 0)) 1) ∧
    0 ≤ scoreAnomaly features ∧ scoreAnomaly features ≤ 1 ∧
    ((processLog f now log).2 = some d →
      (d.is_anomaly = true ↔ f.scoreThreshold ≤ d.anomaly_score)) := by
  refine ⟨?_, ?_, ?_, ?_⟩
  · unfold scoreAnomaly
    split_ifs <;> norm_num
  · unfold scoreAnomaly
    split_ifs <;> norm_num
  · unfold scoreAnomaly
    split_ifs <;> norm_num
  · cases hls : lookupAssoc f.sources log.LogSource with
    | none =>
      intro h
      simp [processLog, hls] at h
    | some metricField =>
      cases hmv : metricValueOf log metricField with
      | none =>
        intro h
        simp [processLog, hls, hmv] at h
      | some metricValue =>
        cases hg : getWindow (updateWindow { f with processedLogs := f.processedLogs + 1 }
            log.LogSource metricValue log.SourceIP log.Timestamp) log.LogSource with
        | none =>
          intro h
          simp [processLog, hls, hmv, hg] at h
        | some window =>
          intro h
          simp only [processLog, hls, hmv, hg] at h
          split at h
          · simp at h
          · have hd : _ = d := Option.some.inj h
            rw [← hd]
            simp [updateWindow_scoreThreshold, decide_eq_true_iff, ge_iff_le]

/-- C6 witness: the threshold linkage evaluated on a concrete flush —
`processLog` on `c6Detector` emits `c6Decision`, whose score `0` lies
below the `0.7` threshold and whose flag is `false`. -/
theorem spec_c6_score_and_threshold_witness :
    (processLog c6Detector 100 c6Log).2 = some c6Decision ∧
    (c6Decision.is_anomaly = true ↔ c6Detector.scoreThreshold ≤ c6Decision.anomaly_score) := by
  have hw : extractFeatures
      { Values := [5, 5], IPs := ["ip"], LastMean := 0, StartTime := 0, EndTime := 0 } =
      c6Features := by
    norm_num [extractFeatures, mean, stdDev, sampleVariance, maxVal, minVal, c6Features] <;>
      try (simp <;> try norm_num)
  have hscore : scoreAnomaly c6Features = 0 := by
    norm_num [scoreAnomaly, featVal, c6Features] <;> try (simp <;> try norm_num)
  have hev : (processLog c6Detector 100 c6Log).2 = some c6Decision := by
    norm_num [processLog, c6Detector, c6Log, raceWindow, lookupAssoc, metricValueOf,
      updateWindow, getWindow, setWindow, addSample, insertIP, freshWindow, clearWindow,
      hw, hscore, c6Decision, decide_eq_false_iff_not] <;> try (simp <;> try norm_num)
  exact ⟨hev,
    (spec_c6_score_and_threshold c6Features c6Detector 100 c6Log c6Decision).2.2.2 hev⟩
